import Mathlib

/-!
Verification of the CallPilot scheduling service against its specification.

The request-layer helpers live in src/app.py (interval-overlap test, time
parsing, time-window filtering, provider filtering, the check-calendar
route).  The in-memory booking store lives in src/main.py and src/agent.py.
Datetimes are embedded as seconds counted from the proleptic-Gregorian day
ordinal, so that Python datetime comparison and timedelta arithmetic become
integer comparison and addition.  Fallible Python code (functions that can
raise) is embedded with Except; dictionaries are embedded as association
lists with Python dict semantics (overwrite keeps position, fresh keys are
appended).
-/

/-- Truthiness of an optional string, as Python sees it: `None` and the
empty string are falsy. -/
def truthyStr : Option String → Bool
  | none => false
  | some s => s ≠ ""

/-- Truthiness of an optional integer, as Python sees it: `None` and `0`
are falsy. -/
def truthyInt : Option Int → Bool
  | none => false
  | some n => n ≠ 0

/-- Gregorian leap-year rule, as used by Python datetime. -/
def isLeapYear (y : Nat) : Bool :=
  y % 4 == 0 && (y % 100 != 0 || y % 400 == 0)

/-- Number of days in a month of the Gregorian calendar. -/
def daysInMonth (y m : Nat) : Nat :=
  if m == 2 then (if isLeapYear y then 29 else 28)
  else if m == 4 || m == 6 || m == 9 || m == 11 then 30
  else 31

/-- Days in the months of year `y` strictly before month `m`. -/
def daysBeforeMonth (y m : Nat) : Nat :=
  (List.range (m - 1)).foldl (fun acc i => acc + daysInMonth y (i + 1)) 0

/-- Proleptic-Gregorian ordinal of a date, mirroring Python
`datetime.toordinal` (day 1 is 0001-01-01). -/
def toOrdinal (y m d : Nat) : Nat :=
  365 * (y - 1) + (y - 1) / 4 - (y - 1) / 100 + (y - 1) / 400 +
    daysBeforeMonth y m + d

/-- A datetime as an absolute second count: ordinal day times 86400 plus
the seconds elapsed in the day.  Python datetime comparison is equivalent
to comparing these counts, and `timedelta(minutes=60)` is `+ 3600`. -/
def dtSeconds (y m d hh mm ss : Nat) : Int :=
  ((toOrdinal y m d) * 86400 + hh * 3600 + mm * 60 + ss : Nat)

/-- Split a character list at every occurrence of the separator, like
Python `str.split` with a one-character separator. -/
def splitOnChar (c : Char) : List Char → List (List Char)
  | [] => [[]]
  | x :: xs =>
    let r := splitOnChar c xs
    if x = c then [] :: r
    else
      match r with
      | [] => [[x]]
      | h :: t => (x :: h) :: t

/-- Decimal value of a nonempty all-digit character list, `none`
otherwise. -/
def digitsVal (l : List Char) : Option Nat :=
  if l.length > 0 && l.all Char.isDigit then
    some (l.foldl (fun a c => a * 10 + (c.toNat - 48)) 0)
  else none

/-- Parse the date part `YYYY-MM-DD` of an ISO string: four-digit year,
two-digit month and day, calendar-valid, year at least 1, exactly as
`datetime.fromisoformat` requires for the date component. -/
def parseDatePart (l : List Char) : Option (Nat × Nat × Nat) :=
  match splitOnChar '-' l with
  | [ys, ms, ds] =>
    if ys.length == 4 && ms.length == 2 && ds.length == 2 then
      match digitsVal ys, digitsVal ms, digitsVal ds with
      | some y, some m, some d =>
        if 1 ≤ y && 1 ≤ m && m ≤ 12 && 1 ≤ d && d ≤ daysInMonth y m then
          some (y, m, d)
        else none
      | _, _, _ => none
    else none
  | _ => none

/-- Parse the time part of an ISO string: `HH`, `HH:MM` or `HH:MM:SS`
with two-digit in-range components. -/
def parseTimePart (l : List Char) : Option (Nat × Nat × Nat) :=
  match splitOnChar ':' l with
  | [hs] =>
    match digitsVal hs with
    | some h => if hs.length == 2 && h ≤ 23 then some (h, 0, 0) else none
    | none => none
  | [hs, ms] =>
    match digitsVal hs, digitsVal ms with
    | some h, some m =>
      if hs.length == 2 && ms.length == 2 && h ≤ 23 && m ≤ 59 then
        some (h, m, 0)
      else none
    | _, _ => none
  | [hs, ms, ss] =>
    match digitsVal hs, digitsVal ms, digitsVal ss with
    | some h, some m, some s2 =>
      if hs.length == 2 && ms.length == 2 && ss.length == 2 &&
          h ≤ 23 && m ≤ 59 && s2 ≤ 59 then
        some (h, m, s2)
      else none
    | _, _, _ => none
  | _ => none

/-- Embedding of `datetime.fromisoformat` on the character list of the
input: a ten-character date part, optionally followed by one separator
character and a time part.  Returns `none` where Python raises
`ValueError`. -/
def fromisoChars (l : List Char) : Option Int :=
  if l.length < 10 then none
  else
    match parseDatePart (l.take 10) with
    | none => none
    | some (y, m, d) =>
      if l.length == 10 then some (dtSeconds y m d 0 0 0)
      else
        match parseTimePart (l.drop 11) with
        | none => none
        | some (hh, mm, ss) => some (dtSeconds y m d hh mm ss)

/-- Embedding of `datetime.fromisoformat`. -/
def fromisoformat (s : String) : Option Int :=
  fromisoChars s.data

/-- Embedding of `_parse_time` from src/app.py: returns `none` when either
argument is falsy, otherwise parses `f"{date_str} {time_str}"`, raising
(`Except.error`) when the combined string is not a valid ISO datetime. -/
def parse_time (time_str date_str : Option String) : Except String (Option Int) :=
  if !(truthyStr time_str) || !(truthyStr date_str) then .ok none
  else
    let s := (date_str.getD "") ++ " " ++ (time_str.getD "")
    match fromisoformat s with
    | some dt => .ok (some dt)
    | none => .error ("Invalid isoformat string: " ++ s)

/-- Embedding of `_overlaps` from src/app.py: the slot `[slot_start,
slot_end)` conflicts with some busy interval `(busy_start, busy_end)` in
the list when `slot_start < busy_end and slot_end > busy_start`. -/
def overlaps (slot_start slot_end : Int) (busy_slots : List (Int × Int)) : Bool :=
  match busy_slots with
  | [] => false
  | (busy_start, busy_end) :: rest =>
    if slot_start < busy_end && slot_end > busy_start then true
    else overlaps slot_start slot_end rest

/-- A Python provider record as found in data/providers.json: the fields
read by the request layer.  `service` is optional because `p.get("service")`
may be absent. -/
structure Provider where
  pid : String
  name : String
  service : Option String
  rating : Option ℚ
  distance : Option ℚ
  slots : List String
  open_now : Bool
deriving DecidableEq

/-- Python `l[:n]`: for nonnegative `n` the first `n` elements, for
negative `n` all but the last `|n|` elements. -/
def pySliceTo {α : Type} (l : List α) (n : Int) : List α :=
  if 0 ≤ n then l.take n.toNat else l.take (l.length - n.natAbs)

/-- Embedding of `filter_providers` from src/app.py: when `service` is
truthy keep only providers whose `service` field equals it, and when
`limit` is truthy truncate with `filtered[:limit]`. -/
def filter_providers (providers : List Provider) (service : Option String)
    (limit : Option Int) : List Provider :=
  let filtered := providers
  let filtered :=
    if truthyStr service then providers.filter (fun p => p.service == service)
    else filtered
  if truthyInt limit then pySliceTo filtered (limit.getD 0) else filtered

/-- The caller's provider list after a call to `filter_providers`: the
source builds fresh lists (a comprehension and a slice) and never assigns
into its argument, so the post-state of the caller's list is the input
itself. -/
def filter_providers_post (providers : List Provider) (_service : Option String)
    (_limit : Option Int) : List Provider :=
  providers

/-- A time-window dictionary as the request layer reads it: the keys
`date`, `start` and `end` (here `stop`), each possibly absent. -/
structure TimeWindow where
  date : Option String
  start : Option String
  stop : Option String
deriving DecidableEq

/-- The slot loop of `_filter_time_window` from src/app.py: walk the
offered slots, parse each against the window's date (propagating a parse
failure as the raised exception), skip slots that parse to a falsy value,
skip slots before `start` or after `stop`, and keep the rest in order. -/
def filterSlots (available : List String) (date : Option String)
    (s e : Option Int) : Except String (List String) :=
  match available with
  | [] => .ok []
  | slot :: rest =>
    match parse_time (some slot) date with
    | .error err => .error err
    | .ok none => filterSlots rest date s e
    | .ok (some t) =>
      if (match s with | some sv => decide (t < sv) | none => false) then
        filterSlots rest date s e
      else if (match e with | some ev => decide (t > ev) | none => false) then
        filterSlots rest date s e
      else (filterSlots rest date s e).map (fun tail => slot :: tail)

/-- Embedding of `_filter_time_window` from src/app.py: with no window
(or a falsy one) return the input; otherwise parse both bounds on the
window's date (a parse failure raises), return the input when both bounds
are falsy, and otherwise run the slot loop. -/
def filter_time_window (available : List String)
    (time_window : Option TimeWindow) : Except String (List String) :=
  match time_window with
  | none => .ok available
  | some tw =>
    match parse_time tw.start tw.date with
    | .error err => .error err
    | .ok s =>
      match parse_time tw.stop tw.date with
      | .error err => .error err
      | .ok e =>
        if s.isNone && e.isNone then .ok available
        else filterSlots available tw.date s e

/-- A slot is kept by the window filter when it parses on the window's
date to a time `t` with `start ≤ t ≤ stop`. -/
def slotKeep (date : Option String) (sdt edt : Int) (slot : String) : Bool :=
  match parse_time (some slot) date with
  | .ok (some t) => decide (sdt ≤ t) && decide (t ≤ edt)
  | _ => false

/-- A slot value parses without raising on the given date (possibly to a
falsy value, when the slot string is empty). -/
def slotParses (date : Option String) (slot : String) : Bool :=
  match parse_time (some slot) date with
  | .ok _ => true
  | .error _ => false

/-- The payload of a POST /check-calendar request as the route reads it:
optional `date`, optional `time_window` dictionary (absent or empty is
falsy), and optional top-level `start` and `end` fallbacks. -/
structure CalPayload where
  date : Option String
  time_window : Option TimeWindow
  start : Option String
  stop : Option String
deriving DecidableEq

/-- Python `x or default` on an optional string: the default replaces a
falsy (missing or empty) value. -/
def strOrDefault (o : Option String) (d : String) : String :=
  if truthyStr o then o.getD "" else d

/-- The effective time window of `check_calendar` from src/app.py: the
payload time window when truthy, otherwise a window built from the
top-level `start` and `end` keys. -/
def effectiveWindow (p : CalPayload) : TimeWindow :=
  match p.time_window with
  | some tw => tw
  | none => ⟨none, p.start, p.stop⟩

/-- One result slot of `check_calendar`: the date string plus `%H:%M`
formatted start and end times. -/
structure CalSlot where
  date : String
  start : String
  stop : String
deriving DecidableEq

/-- Two-digit zero-padded decimal, as `%H` and `%M` of strftime print. -/
def pad2 (n : Nat) : String :=
  if n < 10 then "0" ++ toString n else toString n

/-- `strftime("%H:%M")` of a datetime given as an absolute second
count. -/
def fmtHM (t : Int) : String :=
  pad2 ((t / 3600) % 24).toNat ++ ":" ++ pad2 ((t / 60) % 60).toNat

/-- Build one result record of `check_calendar` from a slot interval. -/
def fmtCalSlot (date_str : String) (p : Int × Int) : CalSlot :=
  ⟨date_str, fmtHM p.1, fmtHM p.2⟩

/-- The slot-generation while loop of `check_calendar` from src/app.py,
as literal recursion: starting from `slot_start`, while it is before
`window_end`, form the 60-minute slot, stop when it would end past
`window_end`, keep it unless it overlaps a busy interval, and advance by
60 minutes. -/
def buildSlotsW (slot_start window_end : Int) (busy : List (Int × Int)) :
    List (Int × Int) :=
  if h : slot_start < window_end then
    if slot_start + 3600 > window_end then []
    else if overlaps slot_start (slot_start + 3600) busy then
      buildSlotsW (slot_start + 3600) window_end busy
    else
      (slot_start, slot_start + 3600) ::
        buildSlotsW (slot_start + 3600) window_end busy
  else []
termination_by (window_end - slot_start).toNat
decreasing_by all_goals omega

/-- Fuel-driven form of the same loop; with enough fuel it agrees with
`buildSlotsW` (theorem `buildSlotsFuel_eq_W`) and it evaluates by kernel
reduction. -/
def buildSlotsFuel (fuel : Nat) (slot_start window_end : Int)
    (busy : List (Int × Int)) : List (Int × Int) :=
  match fuel with
  | 0 => []
  | f + 1 =>
    if slot_start < window_end then
      if slot_start + 3600 > window_end then []
      else if overlaps slot_start (slot_start + 3600) busy then
        buildSlotsFuel f (slot_start + 3600) window_end busy
      else
        (slot_start, slot_start + 3600) ::
          buildSlotsFuel f (slot_start + 3600) window_end busy
    else []

/-- The slots generated by `check_calendar`: the loop runs at most
`window_end - slot_start` times, so that much fuel is enough. -/
def buildSlots (slot_start window_end : Int) (busy : List (Int × Int)) :
    List (Int × Int) :=
  buildSlotsFuel (window_end - slot_start).toNat slot_start window_end busy

/-- Embedding of the POST /check-calendar route of src/app.py.  The busy
intervals are passed in (the source reads them from data/calendar.json).
Request-level rejections and raised parse errors are both `Except.error`;
success returns the generated hourly slot records. -/
def check_calendar (payload : CalPayload) (busy : List (Int × Int)) :
    Except String (List CalSlot) :=
  let tw := effectiveWindow payload
  if !(truthyStr payload.date) then .error "date is required"
  else
    match parse_time (some (strOrDefault tw.start "09:00")) payload.date with
    | .error err => .error err
    | .ok ws? =>
      match parse_time (some (strOrDefault tw.stop "17:00")) payload.date with
      | .error err => .error err
      | .ok we? =>
        match ws?, we? with
        | some ws, some we =>
          if ws ≥ we then .error "invalid time window"
          else .ok ((buildSlots ws we busy).map (fmtCalSlot (payload.date.getD "")))
        | _, _ => .error "invalid time window"

/-- Clamp a value into `[lo, hi]` as `max lo (min x hi)`. -/
def clamp (x lo hi : ℚ) : ℚ := max lo (min x hi)

/-- Modelled from the spec: the Scorer lives in swarm/orchestrator.py,
which src/app.py imports but which is absent from src/.  Spec 4.2:
`rating_norm = clamp(rating / 5, 0, 1)`; an absent rating maps to the
neutral midpoint 0.5. -/
def rating_norm (rating : Option ℚ) : ℚ :=
  match rating with
  | none => 1 / 2
  | some r => clamp (r / 5) 0 1

/-- Modelled from the spec: `distance_norm = clamp(1 - distance_miles /
D_MAX, 0, 1)` with `D_MAX = 10`; an absent distance maps to the neutral
midpoint 0.5. -/
def distance_norm (distance : Option ℚ) : ℚ :=
  match distance with
  | none => 1 / 2
  | some d => clamp (1 - d / 10) 0 1

/-- Modelled from the spec: `time_fit` is 1.0 with no window, and with a
window it decays linearly from 1 at the window start to 0 at the window
end (clamped to `[0,1]`, as spec 4.2 requires of every component). -/
def time_fit (window : Option (ℚ × ℚ)) (slot : ℚ) : ℚ :=
  match window with
  | none => 1
  | some (ws, we) => clamp (1 - (slot - ws) / (we - ws)) 0 1

/-- Modelled from the spec: weights are normalized so they sum to 1
(`w / Σw`), and all-zero weights become equal thirds. -/
def normalize_weights (tw rw dw : ℚ) : ℚ × ℚ × ℚ :=
  if tw + rw + dw = 0 then (1 / 3, 1 / 3, 1 / 3)
  else (tw / (tw + rw + dw), rw / (tw + rw + dw), dw / (tw + rw + dw))

/-- Modelled from the spec: the final score is the weighted sum of the
three components under the normalized weights. -/
def swarm_score (tw rw dw tf rn dn : ℚ) : ℚ :=
  (normalize_weights tw rw dw).1 * tf +
    (normalize_weights tw rw dw).2.1 * rn +
    (normalize_weights tw rw dw).2.2 * dn

/-- The payload of a POST /swarm request as the route reads it. -/
structure SwarmPayload where
  service : Option String
  limit : Option Int
  time_window : Option TimeWindow
  preferences : ℚ × ℚ × ℚ
deriving DecidableEq

/-- Modelled from the spec: the Slot Selector (spec 4.1) of the absent
orchestrator.  Discard malformed slot values without raising, discard
slots inside a busy interval (`busy_start <= slot < busy_end`), discard
slots outside the window, and return the chronologically earliest
remaining slot. -/
def select_slot (w : Option (Int × Int)) (busy : List (Int × Int))
    (slots : List String) : Option (String × Int) :=
  let parsed := slots.filterMap (fun s => (fromisoformat s).map (fun t => (s, t)))
  let nonBusy := parsed.filter
    (fun st => !(busy.any (fun b => decide (b.1 ≤ st.2) && decide (st.2 < b.2))))
  let inWin :=
    match w with
    | none => nonBusy
    | some q => nonBusy.filter (fun st => decide (q.1 ≤ st.2) && decide (st.2 ≤ q.2))
  inWin.foldl
    (fun acc st =>
      match acc with
      | none => some st
      | some best => if st.2 < best.2 then some st else some best) none

/-- Modelled from the spec: input validation of the absent orchestrator
(spec 7a): a malformed time window (unparseable bounds, or start not
before end) is a request-level error raised before any provider work; a
window without usable bounds imposes no constraint. -/
def validate_window (tw? : Option TimeWindow) : Except String (Option (Int × Int)) :=
  match tw? with
  | none => .ok none
  | some tw =>
    match parse_time tw.start tw.date, parse_time tw.stop tw.date with
    | .ok (some ws), .ok (some we) =>
      if ws ≥ we then .error "invalid time window" else .ok (some (ws, we))
    | .ok _, .ok _ => .ok none
    | _, _ => .error "invalid time window"

/-- One per-provider outcome of the swarm. -/
structure NegotiationOutcome where
  provider : Provider
  status : String
  slot : Option String
  score : Option ℚ
deriving DecidableEq

/-- Modelled from the spec: one provider negotiation (spec 4.3): select a
slot; with none the outcome is no_availability; otherwise score the match.
Per-provider failure never escapes: this is a total function. -/
def negotiate_provider (w : Option (Int × Int)) (busy : List (Int × Int))
    (prefs : ℚ × ℚ × ℚ) (p : Provider) : NegotiationOutcome :=
  match select_slot w busy p.slots with
  | none => ⟨p, "no_availability", none, none⟩
  | some st =>
    ⟨p, "matched", some st.1,
      some (swarm_score prefs.1 prefs.2.1 prefs.2.2
        (time_fit (w.map (fun q => ((q.1 : ℚ), (q.2 : ℚ)))) (st.2 : ℚ))
        (rating_norm p.rating) (distance_norm p.distance))⟩

/-- Modelled from the spec: `run_swarm_sync` of swarm/orchestrator.py
(absent from src/): validate the window once, before dispatching any
provider work, and otherwise absorb every per-provider failure into the
outcome list. -/
def run_swarm_sync (payload : SwarmPayload) (providers : List Provider)
    (busy : List (Int × Int)) : Except String (List NegotiationOutcome) :=
  match validate_window payload.time_window with
  | .error e => .error e
  | .ok w => .ok (providers.map (negotiate_provider w busy payload.preferences))

/-- Embedding of the POST /swarm route of src/app.py: filter the provider
directory by service and limit, reject the request with "no providers
available" when the filter leaves nothing, and otherwise run the swarm. -/
def swarm_route (payload : SwarmPayload) (directory : List Provider)
    (busy : List (Int × Int)) : Except String (List NegotiationOutcome) :=
  let providers := filter_providers directory payload.service payload.limit
  if providers.isEmpty then .error "no providers available"
  else run_swarm_sync payload providers busy

/-- The check-calendar window is usable: both defaulted bounds parse on
the request date and the start is strictly before the end. -/
def cal_window_ok (payload : CalPayload) : Bool :=
  match parse_time (some (strOrDefault (effectiveWindow payload).start "09:00"))
      payload.date,
    parse_time (some (strOrDefault (effectiveWindow payload).stop "17:00"))
      payload.date with
  | .ok (some ws), .ok (some we) => decide (ws < we)
  | _, _ => false

/-- `Config.DEFAULT_AVAILABLE_TIMES` from src/config.py. -/
def DEFAULT_AVAILABLE_TIMES : List String :=
  ["09:00", "10:00", "11:00", "14:00", "15:00", "16:00"]

/-- One value of the in-memory availability store: the offered times of a
date and the times already booked. -/
structure DateData where
  available_times : List String
  booked_times : List String
deriving DecidableEq

/-- A Python dict as an association list: lookup of the first matching
key. -/
def alistLookup {α : Type} : List (String × α) → String → Option α
  | [], _ => none
  | (k, v) :: rest, key => if k = key then some v else alistLookup rest key

/-- Python dict assignment: an existing key keeps its position, a fresh
key is appended at the end. -/
def alistSet {α : Type} : List (String × α) → String → α → List (String × α)
  | [], key, v => [(key, v)]
  | (k, w) :: rest, key, v =>
    if k = key then (k, v) :: rest else (k, w) :: alistSet rest key v

/-- The in-memory availability store `AVAILABILITY_DB`. -/
def AvailabilityDB : Type := List (String × DateData)

/-- `datetime.strptime(s, "%Y-%m-%d")` succeeds: a four-digit year, a one
or two digit month and day, forming a valid calendar date of year at
least 1, with no surrounding junk. -/
def strptime_Ymd (s : String) : Bool :=
  match splitOnChar '-' s.data with
  | [ys, ms, ds] =>
    (ys.length == 4 && ys.all Char.isDigit) &&
    (1 ≤ ms.length && ms.length ≤ 2 && ms.all Char.isDigit) &&
    (1 ≤ ds.length && ds.length ≤ 2 && ds.all Char.isDigit) &&
    (match digitsVal ys, digitsVal ms, digitsVal ds with
     | some y, some m, some d =>
       1 ≤ y && 1 ≤ m && m ≤ 12 && 1 ≤ d && d ≤ daysInMonth y m
     | _, _, _ => false)
  | _ => false

/-- Python `s.replace(c, "")`: drop every occurrence of the character. -/
def pyRemoveChar (c : Char) (s : String) : String :=
  ⟨s.data.filter (fun x => decide (x ≠ c))⟩

/-- The result dictionary of `book_appointment`. -/
structure BookResult where
  success : Bool
  message : String
  confirmation_id : Option String
  date : Option String
  time : Option String
  service : Option String
deriving DecidableEq

/-- Embedding of `book_appointment` from src/main.py (the in-memory
store): validate the date format; initialize an absent date with the
default availability; refuse a time that is already booked or not
offered; otherwise append the time to the booked list and confirm. -/
def book_appointment (date time service : String) (db : List (String × DateData)) :
    BookResult × List (String × DateData) :=
  if !(strptime_Ymd date) then
    (⟨false, "Invalid date format. Please use YYYY-MM-DD format.",
      none, none, none, none⟩, db)
  else
    let db1 :=
      match alistLookup db date with
      | none => alistSet db date ⟨DEFAULT_AVAILABLE_TIMES, []⟩
      | some _ => db
    let dd := (alistLookup db1 date).getD ⟨[], []⟩
    if time ∈ dd.booked_times then
      (⟨false, "Time slot " ++ time ++ " is already booked. Please choose another time.",
        none, none, none, none⟩, db1)
    else if time ∉ dd.available_times then
      (⟨false, "Time slot " ++ time ++ " is not available. Please choose from available times.",
        none, none, none, none⟩, db1)
    else
      (⟨true, "Appointment booked successfully",
        some ("CP-" ++ pyRemoveChar (Char.ofNat 45) date ++ "-" ++
          pyRemoveChar (Char.ofNat 58) time),
        some date, some time, some service⟩,
        alistSet db1 date ⟨dd.available_times, dd.booked_times ++ [time]⟩)

/-- The initial `AVAILABILITY_DB` literal of src/main.py. -/
def AVAILABILITY_DB_init : List (String × DateData) :=
  [("2026-02-10", ⟨["09:00", "10:00", "11:00", "14:00", "15:00", "16:00"], []⟩),
   ("2026-02-11", ⟨["09:00", "10:00", "11:00", "14:00", "15:00", "16:00"], []⟩),
   ("2026-02-12", ⟨["09:00", "10:00", "14:00", "15:00", "16:00"], ["11:00"]⟩)]

/-- A booking record of the in-memory `BOOKINGS_DB` of src/agent.py. -/
structure Booking where
  date : String
  time : String
  service : String
  status : String
deriving DecidableEq

/-- The result dictionary of `reschedule_appointment`. -/
structure RescheduleResult where
  success : Bool
  message : String
  confirmation_id : Option String
  old_date : Option String
  old_time : Option String
  new_date : Option String
  new_time : Option String
  service : Option String
deriving DecidableEq

/-- The booked times of a date in the availability store, empty for an
absent date. -/
def bookedOf (db : List (String × DateData)) (d : String) : List String :=
  ((alistLookup db d).map (fun dd => dd.booked_times)).getD []

/-- Initialize an absent date of the availability store with the default
availability and an empty booked list (src/agent.py lines 517-521 and
src/main.py lines 179-183). -/
def ensure_date (avail : List (String × DateData)) (d : String) :
    List (String × DateData) :=
  match alistLookup avail d with
  | none => alistSet avail d ⟨DEFAULT_AVAILABLE_TIMES, []⟩
  | some _ => avail

/-- Free a time slot: when the date is present and the time is in its
booked list, remove the first occurrence (src/agent.py lines 541-544). -/
def free_slot (avail : List (String × DateData)) (od ot : String) :
    List (String × DateData) :=
  match alistLookup avail od with
  | none => avail
  | some odd =>
    if ot ∈ odd.booked_times then
      alistSet avail od ⟨odd.available_times, odd.booked_times.erase ot⟩
    else avail

/-- Embedding of `reschedule_appointment` from src/agent.py (the mock
in-memory fallback branch): validate the new date; look up the booking;
refuse a cancelled booking; initialize an absent new date with default
availability; refuse a new slot that is already booked or not offered;
otherwise free the old slot (remove the first occurrence if present),
book the new slot on the store as updated by the free (the two lists
alias when the dates coincide), and update the booking in place. -/
def reschedule_appointment (confirmation_id new_date new_time : String)
    (bookings : List (String × Booking)) (avail : List (String × DateData)) :
    RescheduleResult × List (String × Booking) × List (String × DateData) :=
  if !(strptime_Ymd new_date) then
    (⟨false, "Invalid date format. Please use YYYY-MM-DD format.",
      none, none, none, none, none, none⟩, bookings, avail)
  else
    match alistLookup bookings confirmation_id with
    | none =>
      (⟨false, "Appointment with confirmation ID " ++ confirmation_id ++ " not found.",
        none, none, none, none, none, none⟩, bookings, avail)
    | some booking =>
      if booking.status = "cancelled" then
        (⟨false, "Cannot reschedule a cancelled appointment. Please book a new appointment.",
          none, none, none, none, none, none⟩, bookings, avail)
      else
        let avail1 := ensure_date avail new_date
        let ndd := (alistLookup avail1 new_date).getD ⟨[], []⟩
        if new_time ∈ ndd.booked_times then
          (⟨false, "Time slot " ++ new_time ++ " on " ++ new_date ++
            " is already booked. Please choose another time.",
            none, none, none, none, none, none⟩, bookings, avail1)
        else if new_time ∉ ndd.available_times then
          (⟨false, "Time slot " ++ new_time ++ " is not available. Please choose from available times.",
            none, none, none, none, none, none⟩, bookings, avail1)
        else
          let avail2 := free_slot avail1 booking.date booking.time
          let ndd2 := (alistLookup avail2 new_date).getD ⟨[], []⟩
          (⟨true, "Appointment rescheduled successfully",
            some confirmation_id, some booking.date, some booking.time,
            some new_date, some new_time, some booking.service⟩,
            alistSet bookings confirmation_id
              ⟨new_date, new_time, booking.service, "rescheduled"⟩,
            alistSet avail2 new_date
              ⟨ndd2.available_times, ndd2.booked_times ++ [new_time]⟩)

theorem overlaps_iff (s e : Int) (busy : List (Int × Int)) :
    overlaps s e busy = true ↔ ∃ b ∈ busy, s < b.2 ∧ e > b.1 := by
  induction busy with
  | nil => simp [overlaps]
  | cons hd tl ih =>
    obtain ⟨b1, b2⟩ := hd
    by_cases h1 : s < b2 <;> by_cases h2 : e > b1 <;>
      simp [overlaps, h1, h2, ih]

/-- C1: a slot `[s, e)` is discarded exactly when some busy interval
`(b_start, b_end)` satisfies `s < b_end` and `e > b_start` — the half-open
conflict test of `_overlaps` — and a slot that begins exactly at a busy
interval's end does not conflict with that interval. -/
theorem C1_overlap_half_open :
    (∀ (s e : Int) (busy : List (Int × Int)),
      overlaps s e busy = true ↔ ∃ b ∈ busy, s < b.2 ∧ e > b.1) ∧
    (∀ (s e b1 : Int), overlaps s e [(b1, s)] = false) := by
  refine ⟨overlaps_iff, ?_⟩
  intro s e b1
  simp [overlaps]

/-- Witness for C1 at concrete inputs: the slot `[100, 160)` conflicts
with the busy interval `(150, 210)`, and a slot starting at `210` does not
conflict with a busy interval ending at `210`. -/
theorem C1_overlap_half_open_witness :
    overlaps 100 160 [(150, 210)] = true ∧ overlaps 210 270 [(150, 210)] = false := by
  constructor
  · exact (C1_overlap_half_open.1 100 160 [(150, 210)]).mpr
      ⟨(150, 210), by simp, by norm_num, by norm_num⟩
  · exact C1_overlap_half_open.2 210 270 150

theorem filterSlots_all_parse (date : Option String) (sdt edt : Int) :
    ∀ avail : List String, (∀ slot ∈ avail, slotParses date slot = true) →
      filterSlots avail date (some sdt) (some edt) =
        .ok (avail.filter (slotKeep date sdt edt)) := by
  intro avail
  induction avail with
  | nil => intro _; simp [filterSlots]
  | cons slot rest ih =>
    intro h
    have hs : slotParses date slot = true := h slot (List.mem_cons_self _ _)
    have hr : ∀ s2 ∈ rest, slotParses date s2 = true :=
      fun s2 hs2 => h s2 (List.mem_cons_of_mem _ hs2)
    unfold slotParses at hs
    cases hp : parse_time (some slot) date with
    | error err => rw [hp] at hs; simp at hs
    | ok o =>
      cases o with
      | none =>
        have hk : slotKeep date sdt edt slot = false := by simp [slotKeep, hp]
        simp only [filterSlots, hp, List.filter_cons, hk]
        simpa using ih hr
      | some t =>
        simp only [filterSlots, hp]
        by_cases h1 : t < sdt
        · have hk : slotKeep date sdt edt slot = false := by
            simp [slotKeep, hp]; omega
          rw [if_pos (by simpa using h1), ih hr]
          simp [List.filter_cons, hk]
        · by_cases h2 : t > edt
          · have hk : slotKeep date sdt edt slot = false := by
              simp [slotKeep, hp]; omega
            rw [if_neg (by simpa using h1), if_pos (by simpa using h2), ih hr]
            simp [List.filter_cons, hk]
          · have hk : slotKeep date sdt edt slot = true := by
              simp [slotKeep, hp]; omega
            rw [if_neg (by simpa using h1), if_neg (by simpa using h2), ih hr]
            simp [Except.map, List.filter_cons, hk]

theorem filterSlots_isOk_false (date : Option String) (s e : Option Int) :
    ∀ (avail : List String) (slot : String), slot ∈ avail →
      slotParses date slot = false → (filterSlots avail date s e).isOk = false := by
  intro avail
  induction avail with
  | nil => intro slot h; simp at h
  | cons hd rest ih =>
    intro slot hmem hbad
    rcases List.mem_cons.mp hmem with rfl | hmem
    · unfold slotParses at hbad
      cases hp : parse_time (some slot) date with
      | error err => simp [filterSlots, hp, Except.isOk, Except.toBool]
      | ok o => rw [hp] at hbad; simp at hbad
    · have htail := ih slot hmem hbad
      cases hp : parse_time (some hd) date with
      | error err => simp [filterSlots, hp, Except.isOk, Except.toBool]
      | ok o =>
        cases o with
        | none => simpa [filterSlots, hp] using htail
        | some t =>
          simp only [filterSlots, hp]
          split
          · exact htail
          · split
            · exact htail
            · cases hft : filterSlots rest date s e with
              | error err => simp [Except.map, Except.isOk, Except.toBool]
              | ok v => rw [hft] at htail; simp [Except.isOk, Except.toBool] at htail

/-- C2: the time-window filter keeps exactly the offered slots whose
parsed time `t` on the window's date satisfies `start ≤ t ≤ stop` (both
bounds inclusive), in their original order, and returns the input list
unchanged when no window or no bounds are given. -/
theorem C2_time_window_filter :
    (∀ avail : List String, filter_time_window avail none = .ok avail) ∧
    (∀ (avail : List String) (tw : TimeWindow), tw.start = none → tw.stop = none →
      filter_time_window avail (some tw) = .ok avail) ∧
    (∀ (avail : List String) (tw : TimeWindow) (sdt edt : Int),
      parse_time tw.start tw.date = .ok (some sdt) →
      parse_time tw.stop tw.date = .ok (some edt) →
      (∀ slot ∈ avail, slotParses tw.date slot = true) →
      filter_time_window avail (some tw) =
        .ok (avail.filter (slotKeep tw.date sdt edt))) := by
  refine ⟨fun avail => rfl, ?_, ?_⟩
  · intro avail tw h1 h2
    simp [filter_time_window, h1, h2, parse_time, truthyStr]
  · intro avail tw sdt edt hps hpe hall
    simp only [filter_time_window, hps, hpe, Option.isNone_some, Bool.false_and,
      Bool.and_false, if_neg]
    exact filterSlots_all_parse tw.date sdt edt avail hall

/-- Witness for C2: on the date 2026-02-08 with window 10:00 to 17:00,
the offered slots 09:00, 12:00 and 18:00 filter to exactly 12:00. -/
theorem C2_time_window_filter_witness :
    filter_time_window ["09:00", "12:00", "18:00"]
      (some ⟨some "2026-02-08", some "10:00", some "17:00"⟩) = .ok ["12:00"] := by
  have h := C2_time_window_filter.2.2 ["09:00", "12:00", "18:00"]
    ⟨some "2026-02-08", some "10:00", some "17:00"⟩
    (dtSeconds 2026 2 8 10 0 0) (dtSeconds 2026 2 8 17 0 0)
    (by rfl) (by rfl) (by decide)
  rw [h]; rfl

/-- Counterexample for C3: with a valid window on 2026-02-08, the slot
list containing the malformed value "banana" makes the filter raise
(the result is not ok), even though without the malformed value the same
filter returns the remaining valid candidates. -/
theorem C3_counterexample :
    (filter_time_window ["09:00", "banana", "10:00"]
      (some ⟨some "2026-02-08", some "09:00", some "17:00"⟩)).isOk = false ∧
    filter_time_window ["09:00", "10:00"]
      (some ⟨some "2026-02-08", some "09:00", some "17:00"⟩) =
        .ok ["09:00", "10:00"] := by
  exact ⟨rfl, rfl⟩

/-- C3 amended: a slot value that is missing or empty is discarded without
an error and the remaining valid candidates are returned; but a non-empty
slot value that fails to parse as a date-time makes the slot filtering
raise an error for the whole provider instead of discarding that slot. -/
theorem C3_amended_malformed_slot :
    (∀ (avail : List String) (tw : TimeWindow) (sdt edt : Int) (slot : String),
      parse_time tw.start tw.date = .ok (some sdt) →
      parse_time tw.stop tw.date = .ok (some edt) →
      slot ∈ avail → slotParses tw.date slot = false →
      (filter_time_window avail (some tw)).isOk = false) ∧
    (∀ (avail : List String) (tw : TimeWindow) (sdt edt : Int),
      parse_time tw.start tw.date = .ok (some sdt) →
      parse_time tw.stop tw.date = .ok (some edt) →
      (∀ slot ∈ avail, slotParses tw.date slot = true) →
      filter_time_window avail (some tw) =
        .ok (avail.filter (slotKeep tw.date sdt edt))) := by
  constructor
  · intro avail tw sdt edt slot hps hpe hmem hbad
    simp only [filter_time_window, hps, hpe, Option.isNone_some, Bool.false_and,
      Bool.and_false, if_neg]
    exact filterSlots_isOk_false tw.date (some sdt) (some edt) avail slot hmem hbad
  · intro avail tw sdt edt hps hpe hall
    simp only [filter_time_window, hps, hpe, Option.isNone_some, Bool.false_and,
      Bool.and_false, if_neg]
    exact filterSlots_all_parse tw.date sdt edt avail hall

/-- Witness for the amended C3: an empty slot value is skipped while the
valid candidates are returned, and the list with the unparseable value
"zz:zz" makes the filter raise. -/
theorem C3_amended_malformed_slot_witness :
    filter_time_window ["", "11:00"]
      (some ⟨some "2026-02-08", some "09:00", some "17:00"⟩) = .ok ["11:00"] ∧
    (filter_time_window ["zz:zz", "11:00"]
      (some ⟨some "2026-02-08", some "09:00", some "17:00"⟩)).isOk = false := by
  constructor
  · have h := C3_amended_malformed_slot.2 ["", "11:00"]
      ⟨some "2026-02-08", some "09:00", some "17:00"⟩
      (dtSeconds 2026 2 8 9 0 0) (dtSeconds 2026 2 8 17 0 0)
      (by rfl) (by rfl) (by decide)
    rw [h]; rfl
  · exact C3_amended_malformed_slot.1 ["zz:zz", "11:00"]
      ⟨some "2026-02-08", some "09:00", some "17:00"⟩
      (dtSeconds 2026 2 8 9 0 0) (dtSeconds 2026 2 8 17 0 0) "zz:zz"
      (by rfl) (by rfl) (by decide) (by rfl)

theorem pySliceTo_subset {α : Type} (l : List α) (n : Int) :
    ∀ x ∈ pySliceTo l n, x ∈ l := by
  intro x hx
  unfold pySliceTo at hx
  split at hx <;> exact List.take_subset _ _ hx

/-- C6: with a truthy service and a positive limit, the provider filter
returns exactly the providers whose service field equals the requested
service, in their original order, truncated to at most the limit; with no
service it returns all providers; with no limit it does not truncate. -/
theorem C6_filter_providers :
    (∀ (ps : List Provider) (s : String) (n : Int), s ≠ "" → 0 < n →
      filter_providers ps (some s) (some n) =
        (ps.filter (fun p => p.service == some s)).take n.toNat) ∧
    (∀ (ps : List Provider) (n : Int), 0 < n →
      filter_providers ps none (some n) = ps.take n.toNat) ∧
    (∀ (ps : List Provider) (s : String), s ≠ "" →
      filter_providers ps (some s) none =
        ps.filter (fun p => p.service == some s)) ∧
    (∀ ps : List Provider, filter_providers ps none none = ps) ∧
    (∀ (ps : List Provider) (s : String) (n : Int) (p : Provider),
      s ≠ "" → 0 < n →
      p ∈ filter_providers ps (some s) (some n) → p.service = some s) ∧
    (∀ (ps : List Provider) (s : String) (n : Int), s ≠ "" → 0 < n →
      (filter_providers ps (some s) (some n)).length ≤ n.toNat) := by
  have key : ∀ (ps : List Provider) (s : String) (n : Int), s ≠ "" → 0 < n →
      filter_providers ps (some s) (some n) =
        (ps.filter (fun p => p.service == some s)).take n.toNat := by
    intro ps s n hs hn
    have hn0 : n ≠ 0 := by omega
    have hn1 : 0 ≤ n := by omega
    simp [filter_providers, truthyStr, truthyInt, pySliceTo, hs, hn0, hn1]
  refine ⟨key, ?_, ?_, ?_, ?_, ?_⟩
  · intro ps n hn
    have hn0 : n ≠ 0 := by omega
    have hn1 : 0 ≤ n := by omega
    simp [filter_providers, truthyStr, truthyInt, pySliceTo, hn0, hn1]
  · intro ps s hs
    simp [filter_providers, truthyStr, truthyInt, hs]
  · intro ps
    simp [filter_providers, truthyStr, truthyInt]
  · intro ps s n p hs hn hp
    rw [key ps s n hs hn] at hp
    have hp2 := List.take_subset _ _ hp
    simpa using (List.mem_filter.mp hp2).2
  · intro ps s n hs hn
    rw [key ps s n hs hn]
    simp [List.length_take]

/-- Witness for C6 at concrete inputs: of three providers, two offer
"dental"; with limit 1 exactly the first dental provider is returned. -/
theorem C6_filter_providers_witness :
    filter_providers
      [⟨"p1", "Ann", some "dental", none, none, [], true⟩,
       ⟨"p2", "Bob", some "vision", none, none, [], true⟩,
       ⟨"p3", "Cid", some "dental", none, none, [], true⟩]
      (some "dental") (some 1) =
      [⟨"p1", "Ann", some "dental", none, none, [], true⟩] := by
  have h := C6_filter_providers.1
    [⟨"p1", "Ann", some "dental", none, none, [], true⟩,
     ⟨"p2", "Bob", some "vision", none, none, [], true⟩,
     ⟨"p3", "Cid", some "dental", none, none, [], true⟩]
    "dental" 1 (by decide) (by decide)
  rw [h]; rfl

/-- C7: the caller's provider list is not mutated by the provider filter:
after the call it has the same length, the same order and element-wise
equal records; and every provider record in the output is one of the
caller's records, unmodified. -/
theorem C7_caller_list_preserved :
    (∀ (ps : List Provider) (s : Option String) (l : Option Int),
      filter_providers_post ps s l = ps) ∧
    (∀ (ps : List Provider) (s : Option String) (l : Option Int),
      (filter_providers_post ps s l).length = ps.length) ∧
    (∀ (ps : List Provider) (s : Option String) (l : Option Int) (i : Nat),
      (filter_providers_post ps s l)[i]? = ps[i]?) ∧
    (∀ (ps : List Provider) (s : Option String) (l : Option Int)
      (p : Provider), p ∈ filter_providers ps s l → p ∈ ps) := by
  refine ⟨fun ps s l => rfl, fun ps s l => rfl, fun ps s l i => rfl, ?_⟩
  intro ps s l p hp
  unfold filter_providers at hp
  cases hs : truthyStr s <;> cases hl : truthyInt l <;>
    simp only [hs, hl, if_true, if_false, Bool.false_eq_true, if_neg,
      Bool.true_eq_false, if_pos] at hp
  · exact hp
  · exact pySliceTo_subset _ _ p hp
  · exact List.mem_of_mem_filter hp
  · exact List.mem_of_mem_filter (pySliceTo_subset _ _ p hp)

/-- Witness for C7: the filtered output of a concrete call consists of
records of the input list, and the post-state list is the input. -/
theorem C7_caller_list_preserved_witness :
    filter_providers_post
      [⟨"p1", "Ann", some "dental", none, none, [], true⟩]
      (some "dental") (some 5) =
      [⟨"p1", "Ann", some "dental", none, none, [], true⟩] ∧
    (⟨"p1", "Ann", some "dental", none, none, [], true⟩ : Provider) ∈
      [(⟨"p1", "Ann", some "dental", none, none, [], true⟩ : Provider)] := by
  refine ⟨C7_caller_list_preserved.1 _ _ _, ?_⟩
  exact C7_caller_list_preserved.2.2.2
    [⟨"p1", "Ann", some "dental", none, none, [], true⟩]
    (some "dental") (some 5)
    ⟨"p1", "Ann", some "dental", none, none, [], true⟩ (by decide)

theorem buildSlotsFuel_eq_W :
    ∀ (fuel : Nat) (ws we : Int) (busy : List (Int × Int)),
      (we - ws).toNat ≤ fuel →
      buildSlotsFuel fuel ws we busy = buildSlotsW ws we busy := by
  intro fuel
  induction fuel with
  | zero =>
    intro ws we busy h
    have hlt : ¬ ws < we := by omega
    rw [buildSlotsW]
    simp [buildSlotsFuel, hlt]
  | succ f ih =>
    intro ws we busy h
    rw [buildSlotsW]
    by_cases hlt : ws < we
    · have h2 : (we - (ws + 3600)).toNat ≤ f := by omega
      simp only [buildSlotsFuel, if_pos hlt, dif_pos hlt]
      by_cases hend : ws + 3600 > we
      · rw [if_pos hend, if_pos hend]
      · rw [if_neg hend, if_neg hend]
        by_cases hov : overlaps ws (ws + 3600) busy = true
        · rw [if_pos hov, if_pos hov]
          exact ih _ _ _ h2
        · rw [if_neg hov, if_neg hov]
          rw [ih _ _ _ h2]
    · simp [buildSlotsFuel, hlt]

theorem buildSlotsFuel_mem :
    ∀ (fuel : Nat) (ws we : Int) (busy : List (Int × Int)) (p : Int × Int),
      p ∈ buildSlotsFuel fuel ws we busy →
      p.2 = p.1 + 3600 ∧ (∃ k : Int, 0 ≤ k ∧ p.1 = ws + 3600 * k) ∧
        p.2 ≤ we ∧ overlaps p.1 p.2 busy = false := by
  intro fuel
  induction fuel with
  | zero => intro ws we busy p hp; simp [buildSlotsFuel] at hp
  | succ f ih =>
    intro ws we busy p hp
    simp only [buildSlotsFuel] at hp
    by_cases hlt : ws < we
    · rw [if_pos hlt] at hp
      by_cases hend : ws + 3600 > we
      · rw [if_pos hend] at hp; simp at hp
      · rw [if_neg hend] at hp
        by_cases hov : overlaps ws (ws + 3600) busy = true
        · rw [if_pos hov] at hp
          obtain ⟨h1, ⟨k, hk0, hk⟩, h3, h4⟩ := ih _ _ _ p hp
          exact ⟨h1, ⟨k + 1, by omega, by omega⟩, h3, h4⟩
        · rw [if_neg hov] at hp
          rcases List.mem_cons.mp hp with rfl | hp2
          · refine ⟨rfl, ⟨0, le_refl 0, ?_⟩, ?_, ?_⟩
            · show ws = ws + 3600 * 0; omega
            · show ws + 3600 ≤ we; omega
            · show overlaps ws (ws + 3600) busy = false
              exact Bool.not_eq_true _ |>.mp hov
          · obtain ⟨h1, ⟨k, hk0, hk⟩, h3, h4⟩ := ih _ _ _ p hp2
            exact ⟨h1, ⟨k + 1, by omega, by omega⟩, h3, h4⟩
    · rw [if_neg hlt] at hp; simp at hp

theorem buildSlotsFuel_pairwise :
    ∀ (fuel : Nat) (ws we : Int) (busy : List (Int × Int)),
      (buildSlotsFuel fuel ws we busy).Pairwise (fun a b => a.1 < b.1) := by
  intro fuel
  induction fuel with
  | zero => intro ws we busy; simp [buildSlotsFuel]
  | succ f ih =>
    intro ws we busy
    simp only [buildSlotsFuel]
    by_cases hlt : ws < we
    · rw [if_pos hlt]
      by_cases hend : ws + 3600 > we
      · simp [hend]
      · rw [if_neg hend]
        by_cases hov : overlaps ws (ws + 3600) busy = true
        · rw [if_pos hov]; exact ih _ _ _
        · rw [if_neg hov]
          refine List.Pairwise.cons ?_ (ih _ _ _)
          intro b hb
          obtain ⟨_, ⟨k, hk0, hk⟩, _, _⟩ := buildSlotsFuel_mem f _ _ _ b hb
          show ws < b.1
          omega
    · rw [if_neg hlt]; simp

theorem parse_time_ok_some_truthy (t d : Option String) (x : Int) :
    parse_time t d = .ok (some x) → truthyStr t = true ∧ truthyStr d = true := by
  intro h
  unfold parse_time at h
  by_cases h1 : truthyStr t <;> by_cases h2 : truthyStr d <;>
    simp [h1, h2] at h ⊢

/-- C10: for any check-calendar request whose window bounds (with their
09:00 and 17:00 defaults) parse on the request date to `ws < we`, the
route succeeds and returns exactly the formatted loop slots, and every
generated slot interval is 60 minutes long, starts a whole number of
hours after the window start, ends no later than the window end, overlaps
no busy interval, and the slots are strictly increasing in time. -/
theorem C10_check_calendar :
    ∀ (payload : CalPayload) (busy : List (Int × Int)) (ws we : Int),
      parse_time (some (strOrDefault (effectiveWindow payload).start "09:00"))
        payload.date = .ok (some ws) →
      parse_time (some (strOrDefault (effectiveWindow payload).stop "17:00"))
        payload.date = .ok (some we) →
      ws < we →
      (check_calendar payload busy =
        .ok ((buildSlots ws we busy).map (fmtCalSlot (payload.date.getD "")))) ∧
      (∀ p ∈ buildSlots ws we busy,
        p.2 = p.1 + 3600 ∧ (∃ k : Int, 0 ≤ k ∧ p.1 = ws + 3600 * k) ∧
          p.2 ≤ we ∧ overlaps p.1 p.2 busy = false) ∧
      (buildSlots ws we busy).Pairwise (fun a b => a.1 < b.1) := by
  intro payload busy ws we hws hwe hlt
  have htr := (parse_time_ok_some_truthy _ _ _ hws).2
  refine ⟨?_, fun p hp => buildSlotsFuel_mem _ _ _ _ p hp,
    buildSlotsFuel_pairwise _ _ _ _⟩
  unfold check_calendar
  simp [htr, hws, hwe, not_le.mpr hlt]

/-- Witness for C10: on 2026-02-08 with the default 09:00 to 17:00 window
and a busy interval 10:00 to 11:00, the returned hourly slots skip the
10:00 slot and run 09:00 then 11:00 through 16:00. -/
theorem C10_check_calendar_witness :
    check_calendar ⟨some "2026-02-08", none, none, none⟩
      [(dtSeconds 2026 2 8 10 0 0, dtSeconds 2026 2 8 11 0 0)] =
      .ok [⟨"2026-02-08", "09:00", "10:00"⟩, ⟨"2026-02-08", "11:00", "12:00"⟩,
           ⟨"2026-02-08", "12:00", "13:00"⟩, ⟨"2026-02-08", "13:00", "14:00"⟩,
           ⟨"2026-02-08", "14:00", "15:00"⟩, ⟨"2026-02-08", "15:00", "16:00"⟩,
           ⟨"2026-02-08", "16:00", "17:00"⟩] := by
  have h := (C10_check_calendar ⟨some "2026-02-08", none, none, none⟩
    [(dtSeconds 2026 2 8 10 0 0, dtSeconds 2026 2 8 11 0 0)]
    (dtSeconds 2026 2 8 9 0 0) (dtSeconds 2026 2 8 17 0 0)
    (by rfl) (by rfl) (by decide)).1
  rw [h]; rfl

theorem clamp01 (x : ℚ) : 0 ≤ clamp x 0 1 ∧ clamp x 0 1 ≤ 1 :=
  ⟨le_max_left 0 _, max_le (by norm_num) (min_le_right x 1)⟩

theorem swarm_score_bounds (tw rw dw tf rn dn : ℚ)
    (htw : 0 ≤ tw) (hrw : 0 ≤ rw) (hdw : 0 ≤ dw)
    (htf0 : 0 ≤ tf) (htf1 : tf ≤ 1) (hrn0 : 0 ≤ rn) (hrn1 : rn ≤ 1)
    (hdn0 : 0 ≤ dn) (hdn1 : dn ≤ 1) :
    0 ≤ swarm_score tw rw dw tf rn dn ∧ swarm_score tw rw dw tf rn dn ≤ 1 := by
  unfold swarm_score normalize_weights
  by_cases hs : tw + rw + dw = 0
  · simp only [hs, if_pos]
    constructor <;> nlinarith
  · simp only [hs, if_neg, ite_false]
    have hspos : 0 < tw + rw + dw := by
      rcases lt_or_eq_of_le (by positivity : (0 : ℚ) ≤ tw + rw + dw) with h | h
      · exact h
      · exact absurd h.symm hs
    have ha : 0 ≤ tw / (tw + rw + dw) := div_nonneg htw hspos.le
    have hb : 0 ≤ rw / (tw + rw + dw) := div_nonneg hrw hspos.le
    have hc : 0 ≤ dw / (tw + rw + dw) := div_nonneg hdw hspos.le
    have hsum : tw / (tw + rw + dw) + rw / (tw + rw + dw) + dw / (tw + rw + dw) = 1 := by
      field_simp
    constructor
    · have h1 := mul_nonneg ha htf0
      have h2 := mul_nonneg hb hrn0
      have h3 := mul_nonneg hc hdn0
      linarith
    · have h1 : tw / (tw + rw + dw) * tf ≤ tw / (tw + rw + dw) :=
        mul_le_of_le_one_right ha htf1
      have h2 : rw / (tw + rw + dw) * rn ≤ rw / (tw + rw + dw) :=
        mul_le_of_le_one_right hb hrn1
      have h3 : dw / (tw + rw + dw) * dn ≤ dw / (tw + rw + dw) :=
        mul_le_of_le_one_right hc hdn1
      linarith

/-- C5: every score component and the final weighted score lie in [0,1]
for non-negative caller weights, and all-zero weights produce exactly the
same score as equal thirds. -/
theorem C5_score_bounds :
    (∀ rating : Option ℚ, 0 ≤ rating_norm rating ∧ rating_norm rating ≤ 1) ∧
    (∀ distance : Option ℚ, 0 ≤ distance_norm distance ∧ distance_norm distance ≤ 1) ∧
    (∀ (window : Option (ℚ × ℚ)) (slot : ℚ),
      0 ≤ time_fit window slot ∧ time_fit window slot ≤ 1) ∧
    (∀ (tw rw dw : ℚ) (rating distance : Option ℚ) (window : Option (ℚ × ℚ))
      (slot : ℚ), 0 ≤ tw → 0 ≤ rw → 0 ≤ dw →
      0 ≤ swarm_score tw rw dw (time_fit window slot) (rating_norm rating)
          (distance_norm distance) ∧
      swarm_score tw rw dw (time_fit window slot) (rating_norm rating)
          (distance_norm distance) ≤ 1) ∧
    (∀ tf rn dn : ℚ, swarm_score 0 0 0 tf rn dn = swarm_score (1/3) (1/3) (1/3) tf rn dn) := by
  have hr : ∀ rating : Option ℚ, 0 ≤ rating_norm rating ∧ rating_norm rating ≤ 1 := by
    intro rating
    cases rating with
    | none => constructor <;> norm_num [rating_norm]
    | some r => simpa [rating_norm] using clamp01 (r / 5)
  have hd : ∀ distance : Option ℚ, 0 ≤ distance_norm distance ∧ distance_norm distance ≤ 1 := by
    intro distance
    cases distance with
    | none => constructor <;> norm_num [distance_norm]
    | some d => simpa [distance_norm] using clamp01 (1 - d / 10)
  have ht : ∀ (window : Option (ℚ × ℚ)) (slot : ℚ),
      0 ≤ time_fit window slot ∧ time_fit window slot ≤ 1 := by
    intro window slot
    cases window with
    | none => constructor <;> norm_num [time_fit]
    | some q =>
      obtain ⟨ws, we⟩ := q
      simpa [time_fit] using clamp01 (1 - (slot - ws) / (we - ws))
  refine ⟨hr, hd, ht, ?_, ?_⟩
  · intro tw rw dw rating distance window slot htw hrw hdw
    exact swarm_score_bounds tw rw dw _ _ _ htw hrw hdw
      (ht window slot).1 (ht window slot).2 (hr rating).1 (hr rating).2
      (hd distance).1 (hd distance).2
  · intro tf rn dn
    norm_num [swarm_score, normalize_weights]

/-- Witness for C5: concrete weights (1,2,3), rating 4, distance 2 and no
window give a final score in [0,1]. -/
theorem C5_score_bounds_witness :
    0 ≤ swarm_score 1 2 3 (time_fit none 0) (rating_norm (some 4))
        (distance_norm (some 2)) ∧
    swarm_score 1 2 3 (time_fit none 0) (rating_norm (some 4))
        (distance_norm (some 2)) ≤ 1 :=
  C5_score_bounds.2.2.2.1 1 2 3 (some 4) (some 2) none 0
    (by norm_num) (by norm_num) (by norm_num)

/-- C4: the request layer rejects a request whose service matches no
provider before running any swarm work, the swarm fails exactly when the
time window is malformed (a request-level validation that precedes
per-provider dispatch), and the check-calendar route fails exactly when
the date is missing or the window is unusable — busy intervals and
provider outcomes never make either route fail. -/
theorem C4_request_level_errors :
    (∀ (payload : SwarmPayload) (directory : List Provider)
      (busy : List (Int × Int)),
      filter_providers directory payload.service payload.limit = [] →
      swarm_route payload directory busy = .error "no providers available") ∧
    (∀ (payload : SwarmPayload) (directory : List Provider)
      (busy : List (Int × Int)),
      filter_providers directory payload.service payload.limit ≠ [] →
      (swarm_route payload directory busy).isOk =
        (validate_window payload.time_window).isOk) ∧
    (∀ (payload : CalPayload) (busy : List (Int × Int)),
      (check_calendar payload busy).isOk =
        (truthyStr payload.date && cal_window_ok payload)) := by
  refine ⟨?_, ?_, ?_⟩
  · intro payload directory busy h
    unfold swarm_route
    rw [h]
    rfl
  · intro payload directory busy h
    unfold swarm_route
    cases hf : filter_providers directory payload.service payload.limit with
    | nil => exact absurd hf h
    | cons p rest =>
      simp only [List.isEmpty_cons, Bool.false_eq_true, if_neg, run_swarm_sync]
      cases hv : validate_window payload.time_window with
      | error e => simp [Except.isOk, Except.toBool]
      | ok w => simp [Except.isOk, Except.toBool]
  · intro payload busy
    unfold check_calendar cal_window_ok
    cases htr : truthyStr payload.date with
    | false => simp [Except.isOk, Except.toBool]
    | true =>
      simp only [Bool.not_true, Bool.false_eq_true, if_neg, Bool.true_and]
      cases h1 : parse_time
          (some (strOrDefault (effectiveWindow payload).start "09:00"))
          payload.date with
      | error e => simp [Except.isOk, Except.toBool]
      | ok ws? =>
        cases h2 : parse_time
            (some (strOrDefault (effectiveWindow payload).stop "17:00"))
            payload.date with
        | error e =>
          cases ws? <;> simp [Except.isOk, Except.toBool]
        | ok we? =>
          cases ws? with
          | none => cases we? <;> simp [Except.isOk, Except.toBool]
          | some ws =>
            cases we? with
            | none => simp [Except.isOk, Except.toBool]
            | some we =>
              by_cases hge : ws ≥ we
              · have : ¬ ws < we := by omega
                simp [hge, this, Except.isOk, Except.toBool]
              · have : ws < we := by omega
                simp [hge, this, Except.isOk, Except.toBool]

/-- Witness for C4: a request for "roofing" against a directory with only
a "dental" provider is rejected with the request-level error. -/
theorem C4_request_level_errors_witness :
    swarm_route ⟨some "roofing", none, none, (1, 1, 1)⟩
      [⟨"p1", "Ann", some "dental", none, none, [], true⟩] [] =
      .error "no providers available" :=
  C4_request_level_errors.1 ⟨some "roofing", none, none, (1, 1, 1)⟩
    [⟨"p1", "Ann", some "dental", none, none, [], true⟩] [] (by rfl)

theorem alistLookup_set_self {α : Type} (db : List (String × α)) (k : String) (v : α) :
    alistLookup (alistSet db k v) k = some v := by
  induction db with
  | nil => simp [alistSet, alistLookup]
  | cons hd tl ih =>
    obtain ⟨k2, w⟩ := hd
    by_cases h : k2 = k
    · simp [alistSet, alistLookup, h]
    · simp [alistSet, alistLookup, h, ih]

theorem alistLookup_set_other {α : Type} (db : List (String × α)) (k k2 : String)
    (v : α) (h : k ≠ k2) :
    alistLookup (alistSet db k v) k2 = alistLookup db k2 := by
  induction db with
  | nil => simp [alistSet, alistLookup, h]
  | cons hd tl ih =>
    obtain ⟨k3, w⟩ := hd
    by_cases h3 : k3 = k
    · subst h3
      simp [alistSet, alistLookup, h]
    · by_cases h2 : k3 = k2 <;>
        simp [alistSet, alistLookup, h3, h2, ih, Ne.symm h]

theorem book_invalid_date (date time service : String)
    (db : List (String × DateData)) (h : strptime_Ymd date = false) :
    book_appointment date time service db =
      (⟨false, "Invalid date format. Please use YYYY-MM-DD format.",
        none, none, none, none⟩, db) := by
  unfold book_appointment
  rw [h]
  rfl

theorem book_success_iff (date time service : String)
    (db : List (String × DateData)) (h : strptime_Ymd date = true) :
    ((book_appointment date time service db).1.success = true ↔
      (time ∈ ((alistLookup db date).getD ⟨DEFAULT_AVAILABLE_TIMES, []⟩).available_times ∧
       time ∉ ((alistLookup db date).getD ⟨DEFAULT_AVAILABLE_TIMES, []⟩).booked_times)) := by
  unfold book_appointment
  simp only [h, Bool.not_true, Bool.false_eq_true, if_false]
  cases hdb : alistLookup db date with
  | none =>
    simp only [hdb, alistLookup_set_self, Option.getD_some, Option.getD_none]
    by_cases hav : time ∈ DEFAULT_AVAILABLE_TIMES <;> simp [hav]
  | some dd =>
    simp only [hdb, Option.getD_some]
    by_cases hbk : time ∈ dd.booked_times
    · simp [hbk]
    · by_cases hav : time ∈ dd.available_times <;> simp [hbk, hav]

theorem book_success_state (date time service : String)
    (db : List (String × DateData)) (h : strptime_Ymd date = true)
    (hs : (book_appointment date time service db).1.success = true) :
    alistLookup (book_appointment date time service db).2 date =
      some ⟨((alistLookup db date).getD ⟨DEFAULT_AVAILABLE_TIMES, []⟩).available_times,
        ((alistLookup db date).getD ⟨DEFAULT_AVAILABLE_TIMES, []⟩).booked_times ++ [time]⟩ ∧
    (∀ d, d ≠ date →
      alistLookup (book_appointment date time service db).2 d = alistLookup db d) := by
  unfold book_appointment at hs ⊢
  simp only [h, Bool.not_true, Bool.false_eq_true, if_false] at hs ⊢
  cases hdb : alistLookup db date with
  | none =>
    simp only [hdb, alistLookup_set_self, Option.getD_some, Option.getD_none] at hs ⊢
    by_cases hav : time ∈ DEFAULT_AVAILABLE_TIMES
    · simp only [List.not_mem_nil, if_false, hav, not_true, if_neg, not_not,
        not_false_iff, if_true]
      constructor
      · simpa using alistLookup_set_self
          (alistSet db date ⟨DEFAULT_AVAILABLE_TIMES, []⟩) date
          ⟨DEFAULT_AVAILABLE_TIMES, [] ++ [time]⟩
      · intro d hd
        rw [alistLookup_set_other _ _ _ _ (fun hc => hd hc.symm),
          alistLookup_set_other _ _ _ _ (fun hc => hd hc.symm)]
    · simp [hav] at hs
  | some dd =>
    simp only [hdb, Option.getD_some] at hs ⊢
    by_cases hbk : time ∈ dd.booked_times
    · simp [hbk] at hs
    · by_cases hav : time ∈ dd.available_times
      · simp only [hbk, hav, if_false, not_true, not_not, not_false_iff,
          if_neg, if_true]
        constructor
        · simpa using alistLookup_set_self db date
            ⟨dd.available_times, dd.booked_times ++ [time]⟩
        · intro d hd
          rw [alistLookup_set_other _ _ _ _ (fun hc => hd hc.symm)]
      · simp [hbk, hav] at hs

theorem book_failure_state (date time service : String)
    (db : List (String × DateData)) (h : strptime_Ymd date = true)
    (hs : (book_appointment date time service db).1.success = false) :
    (∀ d, bookedOf (book_appointment date time service db).2 d = bookedOf db d) ∧
    ((alistLookup db date).isSome = true →
      (book_appointment date time service db).2 = db) ∧
    (alistLookup db date = none →
      (book_appointment date time service db).2 =
        alistSet db date ⟨DEFAULT_AVAILABLE_TIMES, []⟩) := by
  unfold book_appointment at hs ⊢
  simp only [h, Bool.not_true, Bool.false_eq_true, if_false] at hs ⊢
  cases hdb : alistLookup db date with
  | none =>
    simp only [hdb, alistLookup_set_self, Option.getD_some, Option.getD_none] at hs ⊢
    by_cases hav : time ∈ DEFAULT_AVAILABLE_TIMES
    · simp [hav] at hs
    · simp only [List.not_mem_nil, if_false, hav, not_false_iff, if_true, if_neg]
      refine ⟨?_, by simp, by simp⟩
      intro d
      by_cases hd : d = date
      · subst hd
        unfold bookedOf
        rw [alistLookup_set_self, hdb]
        rfl
      · unfold bookedOf
        rw [alistLookup_set_other _ _ _ _ (fun hc => hd hc.symm)]
  | some dd =>
    simp only [hdb, Option.getD_some] at hs ⊢
    by_cases hbk : time ∈ dd.booked_times
    · simp only [hbk, if_true]
      exact ⟨by simp, by simp, by simp⟩
    · by_cases hav : time ∈ dd.available_times
      · simp [hbk, hav] at hs
      · simp only [hbk, hav, if_false, not_false_iff, if_true, if_neg]
        exact ⟨by simp, by simp, by simp⟩

/-- Counterexample for C8: booking 23:00 on the well-formed but absent
date 2026-03-01 fails (the time is not among the default offers), yet the
availability store is changed: the date has been inserted with default
availability. -/
theorem C8_counterexample :
    (book_appointment "2026-03-01" "23:00" "consultation" AVAILABILITY_DB_init).1.success = false ∧
    (book_appointment "2026-03-01" "23:00" "consultation" AVAILABILITY_DB_init).2 ≠
      AVAILABILITY_DB_init := by
  constructor
  · rfl
  · decide

/-- C8 amended: with a well-formed date, booking succeeds exactly when
the requested time is offered and not yet booked on that date (an absent
date offering the default times); on success the time is appended once to
that date's booked times and every other date is untouched; on a
malformed date the store is returned unchanged; on any other failure no
booked list changes, a present date leaves the store identical, and an
absent date is merely initialized with default availability and an empty
booked list. -/
theorem C8_book_appointment :
    (∀ (date time service : String) (db : List (String × DateData)),
      strptime_Ymd date = false →
      book_appointment date time service db =
        (⟨false, "Invalid date format. Please use YYYY-MM-DD format.",
          none, none, none, none⟩, db)) ∧
    (∀ (date time service : String) (db : List (String × DateData)),
      strptime_Ymd date = true →
      ((book_appointment date time service db).1.success = true ↔
        (time ∈ ((alistLookup db date).getD ⟨DEFAULT_AVAILABLE_TIMES, []⟩).available_times ∧
         time ∉ ((alistLookup db date).getD ⟨DEFAULT_AVAILABLE_TIMES, []⟩).booked_times))) ∧
    (∀ (date time service : String) (db : List (String × DateData)),
      strptime_Ymd date = true →
      (book_appointment date time service db).1.success = true →
      alistLookup (book_appointment date time service db).2 date =
        some ⟨((alistLookup db date).getD ⟨DEFAULT_AVAILABLE_TIMES, []⟩).available_times,
          ((alistLookup db date).getD ⟨DEFAULT_AVAILABLE_TIMES, []⟩).booked_times ++ [time]⟩ ∧
      (∀ d, d ≠ date →
        alistLookup (book_appointment date time service db).2 d = alistLookup db d)) ∧
    (∀ (date time service : String) (db : List (String × DateData)),
      strptime_Ymd date = true →
      (book_appointment date time service db).1.success = false →
      (∀ d, bookedOf (book_appointment date time service db).2 d = bookedOf db d) ∧
      ((alistLookup db date).isSome = true →
        (book_appointment date time service db).2 = db) ∧
      (alistLookup db date = none →
        (book_appointment date time service db).2 =
          alistSet db date ⟨DEFAULT_AVAILABLE_TIMES, []⟩)) :=
  ⟨book_invalid_date, book_success_iff, book_success_state, book_failure_state⟩

/-- Witness for the amended C8: booking 09:00 on 2026-02-10 in the
initial store succeeds and appends 09:00 to that date's booked times. -/
theorem C8_book_appointment_witness :
    (book_appointment "2026-02-10" "09:00" "consultation" AVAILABILITY_DB_init).1.success = true ∧
    alistLookup (book_appointment "2026-02-10" "09:00" "consultation"
        AVAILABILITY_DB_init).2 "2026-02-10" =
      some ⟨["09:00", "10:00", "11:00", "14:00", "15:00", "16:00"], ["09:00"]⟩ := by
  have h1 : (book_appointment "2026-02-10" "09:00" "consultation"
      AVAILABILITY_DB_init).1.success = true :=
    (C8_book_appointment.2.1 "2026-02-10" "09:00" "consultation"
      AVAILABILITY_DB_init (by rfl)).mpr (by decide)
  refine ⟨h1, ?_⟩
  have h := (C8_book_appointment.2.2.1 "2026-02-10" "09:00" "consultation"
    AVAILABILITY_DB_init (by rfl) h1).1
  rw [h]; rfl

theorem getD_booked (a : List (String × DateData)) (d : String) :
    ((alistLookup a d).getD ⟨[], []⟩).booked_times = bookedOf a d := by
  unfold bookedOf
  cases alistLookup a d <;> rfl

theorem bookedOf_ensure (avail : List (String × DateData)) (nd d : String) :
    bookedOf (ensure_date avail nd) d = bookedOf avail d := by
  unfold ensure_date
  cases hl : alistLookup avail nd with
  | none =>
    by_cases hd : d = nd
    · subst hd
      unfold bookedOf
      rw [alistLookup_set_self, hl]
      rfl
    · unfold bookedOf
      rw [alistLookup_set_other _ _ _ _ (fun hc => hd hc.symm)]
  | some dd => rfl

theorem bookedOf_free (a : List (String × DateData)) (od ot d : String) :
    bookedOf (free_slot a od ot) d =
      (if d = od then (bookedOf a d).erase ot else bookedOf a d) := by
  unfold free_slot
  cases hl : alistLookup a od with
  | none =>
    dsimp only
    by_cases hd : d = od
    · subst hd
      unfold bookedOf
      rw [hl]
      simp
    · simp [hd]
  | some odd =>
    dsimp only
    by_cases hmem : ot ∈ odd.booked_times
    · rw [if_pos hmem]
      by_cases hd : d = od
      · subst hd
        unfold bookedOf
        rw [alistLookup_set_self, hl]
        simp
      · unfold bookedOf
        rw [alistLookup_set_other _ _ _ _ (fun hc => hd hc.symm)]
        simp [hd]
    · rw [if_neg hmem]
      by_cases hd : d = od
      · subst hd
        unfold bookedOf
        rw [hl]
        simp [List.erase_of_not_mem hmem]
      · simp [hd]

theorem bookedOf_set_self (a : List (String × DateData)) (k : String)
    (v : DateData) : bookedOf (alistSet a k v) k = v.booked_times := by
  unfold bookedOf
  rw [alistLookup_set_self]
  rfl

theorem bookedOf_set_other (a : List (String × DateData)) (k d : String)
    (v : DateData) (h : k ≠ d) :
    bookedOf (alistSet a k v) d = bookedOf a d := by
  unfold bookedOf
  rw [alistLookup_set_other _ _ _ _ h]

theorem reschedule_failure (cid nd nt : String)
    (bookings : List (String × Booking)) (avail : List (String × DateData))
    (hs : (reschedule_appointment cid nd nt bookings avail).1.success = false) :
    (reschedule_appointment cid nd nt bookings avail).2.1 = bookings ∧
    (∀ d, bookedOf (reschedule_appointment cid nd nt bookings avail).2.2 d =
      bookedOf avail d) := by
  unfold reschedule_appointment at hs ⊢
  by_cases hv : strptime_Ymd nd
  · simp only [hv, Bool.not_true, Bool.false_eq_true, if_false] at hs ⊢
    cases hb : alistLookup bookings cid with
    | none => exact ⟨by simp, by simp⟩
    | some booking =>
      simp only [hb] at hs ⊢
      by_cases hc : booking.status = "cancelled"
      · simp only [hc, if_true]
        exact ⟨by simp, by simp⟩
      · simp only [hc, if_false] at hs ⊢
        by_cases hbk : nt ∈ ((alistLookup (ensure_date avail nd) nd).getD ⟨[], []⟩).booked_times
        · simp only [hbk, if_true]
          exact ⟨by simp, fun d => bookedOf_ensure avail nd d⟩
        · simp only [hbk, if_false, not_false_iff, if_true, if_neg] at hs ⊢
          by_cases hav : nt ∈ ((alistLookup (ensure_date avail nd) nd).getD ⟨[], []⟩).available_times
          · simp [hbk, hav] at hs
          · simp only [hbk, hav, not_false_iff, if_true, if_false, if_neg] at hs ⊢
            exact ⟨by simp, fun d => bookedOf_ensure avail nd d⟩
  · simp only [hv, Bool.not_false, if_true]
    exact ⟨by simp, by simp⟩

theorem reschedule_success (cid nd nt : String)
    (bookings : List (String × Booking)) (avail : List (String × DateData))
    (hs : (reschedule_appointment cid nd nt bookings avail).1.success = true) :
    ∃ b, alistLookup bookings cid = some b ∧
      alistLookup (reschedule_appointment cid nd nt bookings avail).2.1 cid =
        some ⟨nd, nt, b.service, "rescheduled"⟩ ∧
      (∀ c, c ≠ cid →
        alistLookup (reschedule_appointment cid nd nt bookings avail).2.1 c =
          alistLookup bookings c) ∧
      bookedOf (reschedule_appointment cid nd nt bookings avail).2.2 nd =
        (if b.date = nd then (bookedOf avail nd).erase b.time
         else bookedOf avail nd) ++ [nt] ∧
      (b.date ≠ nd →
        bookedOf (reschedule_appointment cid nd nt bookings avail).2.2 b.date =
          (bookedOf avail b.date).erase b.time) ∧
      (∀ d, d ≠ nd → d ≠ b.date →
        bookedOf (reschedule_appointment cid nd nt bookings avail).2.2 d =
          bookedOf avail d) := by
  unfold reschedule_appointment at hs ⊢
  by_cases hv : strptime_Ymd nd
  · simp only [hv, Bool.not_true, Bool.false_eq_true, if_false] at hs ⊢
    cases hb : alistLookup bookings cid with
    | none => simp [hb] at hs
    | some booking =>
      simp only [hb] at hs ⊢
      by_cases hc : booking.status = "cancelled"
      · simp [hc] at hs
      · simp only [hc, if_false] at hs ⊢
        by_cases hbk : nt ∈ ((alistLookup (ensure_date avail nd) nd).getD ⟨[], []⟩).booked_times
        · simp [hbk] at hs
        · simp only [hbk, if_false, not_false_iff, if_true, if_neg] at hs ⊢
          by_cases hav : nt ∈ ((alistLookup (ensure_date avail nd) nd).getD ⟨[], []⟩).available_times
          · simp only [hav, not_true, if_false, if_neg, not_not, if_true] at hs ⊢
            refine ⟨booking, by simp [hb], ?_, ?_, ?_, ?_, ?_⟩
            · exact alistLookup_set_self _ _ _
            · intro c hc2
              exact alistLookup_set_other _ _ _ _ (fun he => hc2 he.symm)
            · rw [bookedOf_set_self]
              dsimp only
              rw [getD_booked, bookedOf_free]
              simp only [bookedOf_ensure]
              by_cases hd : booking.date = nd
              · simp [hd]
              · rw [if_neg (fun he => hd he.symm), if_neg hd]
            · intro hdne
              rw [bookedOf_set_other _ _ _ _ (fun he => hdne he.symm),
                bookedOf_free, if_pos rfl, bookedOf_ensure]
            · intro d hdn hdb
              rw [bookedOf_set_other _ _ _ _ (fun he => hdn he.symm),
                bookedOf_free, if_neg hdb, bookedOf_ensure]
          · simp [hav] at hs
  · simp [hv] at hs

/-- C9: whenever the in-memory reschedule returns success false (malformed
new date, unknown confirmation ID, cancelled booking, or new slot already
booked or not offered), the bookings map is returned unchanged and the
booked times of every date are unchanged; on success the booking is
updated to the new date and time, the old time is freed (first occurrence
removed, on the same list when the dates coincide), the new time is
appended, and every other date and booking is untouched. -/
theorem C9_reschedule_appointment :
    (∀ (cid nd nt : String) (bookings : List (String × Booking))
      (avail : List (String × DateData)),
      (reschedule_appointment cid nd nt bookings avail).1.success = false →
      (reschedule_appointment cid nd nt bookings avail).2.1 = bookings ∧
      (∀ d, bookedOf (reschedule_appointment cid nd nt bookings avail).2.2 d =
        bookedOf avail d)) ∧
    (∀ (cid nd nt : String) (bookings : List (String × Booking))
      (avail : List (String × DateData)),
      (reschedule_appointment cid nd nt bookings avail).1.success = true →
      ∃ b, alistLookup bookings cid = some b ∧
        alistLookup (reschedule_appointment cid nd nt bookings avail).2.1 cid =
          some ⟨nd, nt, b.service, "rescheduled"⟩ ∧
        (∀ c, c ≠ cid →
          alistLookup (reschedule_appointment cid nd nt bookings avail).2.1 c =
            alistLookup bookings c) ∧
        bookedOf (reschedule_appointment cid nd nt bookings avail).2.2 nd =
          (if b.date = nd then (bookedOf avail nd).erase b.time
           else bookedOf avail nd) ++ [nt] ∧
        (b.date ≠ nd →
          bookedOf (reschedule_appointment cid nd nt bookings avail).2.2 b.date =
            (bookedOf avail b.date).erase b.time) ∧
        (∀ d, d ≠ nd → d ≠ b.date →
          bookedOf (reschedule_appointment cid nd nt bookings avail).2.2 d =
            bookedOf avail d)) :=
  ⟨reschedule_failure, reschedule_success⟩

/-- Witness for C9: rescheduling the 10:00 booking of 2026-02-10 to 11:00
on the same date frees 10:00 and books 11:00; the booked list of that
date becomes exactly 11:00.  A reschedule to an already-booked slot fails
and leaves the booked list unchanged. -/
theorem C9_reschedule_appointment_witness :
    bookedOf (reschedule_appointment "CP-1" "2026-02-10" "11:00"
      [("CP-1", ⟨"2026-02-10", "10:00", "consultation", "confirmed"⟩)]
      [("2026-02-10", ⟨DEFAULT_AVAILABLE_TIMES, ["10:00"]⟩)]).2.2 "2026-02-10" =
      ["11:00"] ∧
    bookedOf (reschedule_appointment "CP-1" "2026-02-10" "10:00"
      [("CP-1", ⟨"2026-02-10", "10:00", "consultation", "confirmed"⟩)]
      [("2026-02-10", ⟨DEFAULT_AVAILABLE_TIMES, ["10:00"]⟩)]).2.2 "2026-02-10" =
      ["10:00"] := by
  constructor
  · obtain ⟨b, hb, h2, h3, h4, h5, h6⟩ :=
      C9_reschedule_appointment.2 "CP-1" "2026-02-10" "11:00"
        [("CP-1", ⟨"2026-02-10", "10:00", "consultation", "confirmed"⟩)]
        [("2026-02-10", ⟨DEFAULT_AVAILABLE_TIMES, ["10:00"]⟩)] (by rfl)
    have hbv : b = ⟨"2026-02-10", "10:00", "consultation", "confirmed"⟩ := by
      have h0 : (some b : Option Booking) =
          some ⟨"2026-02-10", "10:00", "consultation", "confirmed"⟩ := by
        rw [← hb]
        rfl
      exact Option.some.inj h0
    subst hbv
    rw [h4]
    rfl
  · have h := (C9_reschedule_appointment.1 "CP-1" "2026-02-10" "10:00"
      [("CP-1", ⟨"2026-02-10", "10:00", "consultation", "confirmed"⟩)]
      [("2026-02-10", ⟨DEFAULT_AVAILABLE_TIMES, ["10:00"]⟩)] (by rfl)).2 "2026-02-10"
    rw [h]
    rfl
